import Mathlib

/-!
Verification of the synchronization engine of the js-redis-registry package
(src/src/redis-registry.ts). The Registry keeps a Local Mirror (the field
named store) of a namespaced key/value hash, persists writes to a durable
hash store in the background, and propagates changes over pub/sub channels.

Modelling conventions:
- JavaScript values are modelled by the inductive type JVal; the JS value
  undefined is the constructor vundef, so a read of a missing property
  (store[key] on an absent key) yields vundef as in JS.
- The strict-equality operator of JS is modelled by JVal.beq on this value
  domain: primitives compare by value, arrays by reference identity. Object
  identity is carried as an allocation tag on each array value; within a
  modelled execution distinct array allocations bear distinct tags and the
  same reference always carries the same tag.
- Each operation of the class is a pure function from the registry state to
  a new state paired with the ordered list of external actions it performs:
  persistence requests, pub/sub publishes and event emissions, in program
  order. Asynchronous completion of a background request is modelled by
  passing the request's outcome (success or failure) as an argument.
- The external collaborators (redis client, message codec, JSON parser) are
  kept abstract exactly where the source calls out to them.
-/

/-- JavaScript values as stored in the Local Mirror and carried in change
envelopes (undefined, null, booleans, numbers, strings, arrays). An array
value carries the object identity of its allocation as the tag ref: within
a modelled execution, distinct array allocations bear distinct tags and the
same array reference always carries the same tag. -/
inductive JVal where
  | vundef : JVal
  | vnull : JVal
  | vbool (b : Bool) : JVal
  | vnum (n : Int) : JVal
  | vstr (s : String) : JVal
  | varr (ref : Nat) (elems : List JVal) : JVal

/-- The strict-equality operator of JS (the === test guarding Registry.set):
primitives compare by value; arrays compare by reference identity, that is,
by their allocation tag, never by their contents. -/
def JVal.beq : JVal → JVal → Bool
  | .vundef, .vundef => true
  | .vnull, .vnull => true
  | .vbool a, .vbool b => a == b
  | .vnum a, .vnum b => a == b
  | .vstr a, .vstr b => a == b
  | .varr r _, .varr r' _ => r == r'
  | _, _ => false

mutual

/-- Modelled from the spec: value equality of two JS values — structural
comparison, ignoring array reference identity. This definition follows the
spec's words ("identical (by value equality)"); the source's guard is the
strict-equality test JVal.beq, and the two are compared in the C4
counterexample. -/
def specValueEq : JVal → JVal → Bool
  | .vundef, .vundef => true
  | .vnull, .vnull => true
  | .vbool a, .vbool b => a == b
  | .vnum a, .vnum b => a == b
  | .vstr a, .vstr b => a == b
  | .varr _ xs, .varr _ ys => specValueEqList xs ys
  | _, _ => false

/-- Element-wise value equality on JS array contents. -/
def specValueEqList : List JVal → List JVal → Bool
  | [], [] => true
  | x :: xs, y :: ys => specValueEq x y && specValueEqList xs ys
  | _, _ => false

end

mutual

/-- Coercion of a JVal to a string, modelling how JS stringifies a value used
as an object property key (the source reads dArgs[0] and uses it to index
this.store, which coerces it with the abstract ToPropertyKey operation). -/
def jvalAsString : JVal → String
  | .vundef => "undefined"
  | .vnull => "null"
  | .vbool b => cond b "true" "false"
  | .vnum n => toString n
  | .vstr s => s
  | .varr _ xs => jvalListAsString xs

/-- String coercion of a JS array: elements joined by commas, with undefined
and null elements rendered as the empty string. -/
def jvalListAsString : List JVal → String
  | [] => ""
  | [JVal.vundef] => ""
  | [JVal.vnull] => ""
  | [x] => jvalAsString x
  | JVal.vundef :: xs => "," ++ jvalListAsString xs
  | JVal.vnull :: xs => "," ++ jvalListAsString xs
  | x :: xs => jvalAsString x ++ "," ++ jvalListAsString xs

end

/-- The Local Mirror (field store of the Registry class): a JS plain object,
modelled as an association list from property name to value. -/
abbrev Store := List (String × JVal)

/-- Property read store[key] as an Option (none when the key is absent). -/
def jsLookup : Store → String → Option JVal
  | [], _ => none
  | (k, v) :: rest, key => if k = key then some v else jsLookup rest key

/-- Property read store[key] as performed by JS: undefined when absent. -/
def jsRead (s : Store) (key : String) : JVal :=
  (jsLookup s key).getD JVal.vundef

/-- The hasOwnProperty test of JS objects. -/
def jsHas (s : Store) (key : String) : Bool :=
  (jsLookup s key).isSome

/-- Property assignment store[key] = value: overwrite in place when the key
exists, append otherwise (JS insertion order). -/
def jsAssign : Store → String → JVal → Store
  | [], key, value => [(key, value)]
  | (k, v) :: rest, key, value =>
      if k = key then (k, value) :: rest else (k, v) :: jsAssign rest key value

/-- Property removal (the delete operator): drop the key if present. -/
def jsDelete (s : Store) (key : String) : Store :=
  s.filter (fun p => p.1 != key)

/-- State of one Registry instance: the key namespace, the unique instance
id generated at construction, and the Local Mirror. The redis client
configuration and the subscriber connection handle are connection plumbing
to the external transport and carry no synchronization logic. -/
structure RegState where
  keyspace : String
  uniqId : String
  store : Store

/-- Source constant ChannelConfigSet: pub channel name for the set action. -/
def ChannelConfigSet : String := "ConfigSet"

/-- Source constant ChannelConfigClear: pub channel name for the clear
action. -/
def ChannelConfigClear : String := "ConfigClear"

/-- The keyConfig getter: durable-store hash key for this namespace. -/
def keyConfig (st : RegState) : String := "config:" ++ st.keyspace

/-- The keySpaceChannel method: broadcast channel name scoped to this
namespace. -/
def keySpaceChannel (st : RegState) (channel : String) : String :=
  channel ++ ":" ++ st.keyspace

/-- One observable external action of the engine, in program order:
a background persistence request to the durable hash store (hsetReq,
hdelReq), a pub/sub publish of an encoded change envelope (publishMsg, with
the structured content handed to the external codec), or an event emission
on the instance's event bus (evError, evSet, evCleared, evUpdated). -/
inductive Act where
  | hsetReq (nsKey field : String) (value : JVal)
  | hdelReq (nsKey field : String)
  | publishMsg (channel sender : String) (args : List JVal)
  | evError
  | evSet (key : String) (value previousValue : JVal)
  | evCleared (key : String)
  | evUpdated

/-- The emitSet helper: emits the set event then the updated event. -/
def emitSetActions (key : String) (value previousValue : JVal) : List Act :=
  [Act.evSet key value previousValue, Act.evUpdated]

/-- The emitCleared helper: emits the cleared event then the updated
event. -/
def emitClearedActions (key : String) : List Act :=
  [Act.evCleared key, Act.evUpdated]

/-- A decoded pub/sub message as produced by the external MessageModel
codec: the sender's instance id and the JSON argument list. -/
structure Msg where
  sender : String
  args : List JVal

/-- The set method. The persistence request runs in the background; its
outcome is the argument persistOk (true when hset succeeded). The returned
action list is the ordered sequence of external effects: the hset request,
then — inside the completion callback — the publish of the change envelope
[key, value, previous] before the error check, then either the error
emission (failure) or the set/updated emissions (success). -/
def Registry.set (st : RegState) (key : String) (value : JVal)
    (persistOk : Bool) : RegState × List Act :=
  let previous := jsRead st.store key
  if JVal.beq previous value then (st, [])
  else
    ({ st with store := jsAssign st.store key value },
      Act.hsetReq (keyConfig st) key value ::
      Act.publishMsg (keySpaceChannel st ChannelConfigSet) st.uniqId
        [JVal.vstr key, value, previous] ::
      (if persistOk then emitSetActions key value previous
       else [Act.evError]))

/-- The clear method. The hdel request runs in the background with outcome
persistOk; on completion the clear envelope [key] is published before the
error check, then either the error emission or the cleared/updated
emissions. -/
def Registry.clear (st : RegState) (key : String) (persistOk : Bool) :
    RegState × List Act :=
  let store1 := if jsHas st.store key then jsDelete st.store key else st.store
  ({ st with store := store1 },
    Act.hdelReq (keyConfig st) key ::
    Act.publishMsg (keySpaceChannel st ChannelConfigClear) st.uniqId
      [JVal.vstr key] ::
    (if persistOk then emitClearedActions key else [Act.evError]))

/-- The get method: defaultValue when the key is absent from the Local
Mirror (hasOwnProperty test), the mirrored value otherwise. Pure read. -/
def Registry.get (st : RegState) (key : String)
    (defaultValue : JVal := JVal.vundef) : JVal :=
  if !(jsHas st.store key) then defaultValue else jsRead st.store key

/-- The applyEncodedKeyValue method: parse the stored text with the external
JSON parser (argument dec); on success assign the key, on a parse failure
leave the store untouched (the exception is swallowed). -/
def applyEncodedKeyValue (dec : String → Option JVal) (s : Store)
    (key text : String) : Store :=
  match dec text with
  | some v => jsAssign s key v
  | none => s

/-- The pull method. The store is reset synchronously; the hgetall request
completes with fetch (error, or the hash as a field/text list, possibly
null). On error only the error event is emitted; on success every field is
applied through applyEncodedKeyValue, the updated event is emitted and the
optional completion callback is invoked. The Bool result records whether
the completion callback (when supplied) is invoked. -/
def Registry.pull (st : RegState) (dec : String → Option JVal)
    (fetch : Except Unit (Option (List (String × String)))) :
    RegState × List Act × Bool :=
  match fetch with
  | .error _ => ({ st with store := [] }, [Act.evError], false)
  | .ok hash =>
      let store1 := (hash.getD []).foldl
        (fun s kv => applyEncodedKeyValue dec s kv.1 kv.2) []
      ({ st with store := store1 }, [Act.evUpdated], true)

/-- The onSubscriberMessage handler, after the external codec has decoded
the incoming payload into m. Self-published messages are ignored; a message
on the namespaced set channel overwrites the mirror and emits set/updated
with the local previous value; a message on the namespaced clear channel
removes the key and emits cleared/updated. -/
def Registry.onSubscriberMessage (st : RegState) (channel : String)
    (m : Msg) : RegState × List Act :=
  if m.sender = st.uniqId then (st, [])
  else
    let keyName := jvalAsString (m.args.getD 0 JVal.vundef)
    if channel = keySpaceChannel st ChannelConfigSet then
      let newValue := m.args.getD 1 JVal.vundef
      let prevLValue := jsRead st.store keyName
      ({ st with store := jsAssign st.store keyName newValue },
        emitSetActions keyName newValue prevLValue)
    else if channel = keySpaceChannel st ChannelConfigClear then
      ({ st with store := jsDelete st.store keyName },
        emitClearedActions keyName)
    else (st, [])

/-- Event name the watch method registers its set listener under. -/
def eventNameSet : String := "set"

/-- Event name the watch method registers its clear listener under. -/
def eventNameClear : String := "clear"

/-- Event name emitted by the emitSet helper. -/
def emitSetEventName : String := "set"

/-- Event name emitted by the emitCleared helper. -/
def emitClearedEventName : String := "cleared"

/-- Delivery of one emitted event to the two listeners a watch handle
registered: the event bus hands the event to a listener only when the
emitted name equals the name the listener registered under; each listener
then checks the per-handle ended flag and the key filter. The result lists
the values the watch callback is invoked with (the set listener passes the
event's value, the clear listener passes undefined). The first positional
event argument arg0 is the key, the second arg1 the value (vundef when the
emission carried fewer arguments, as in JS). -/
def watchInvocations (watchKey : String) (ended : Bool)
    (emittedName : String) (arg0 arg1 : JVal) : List JVal :=
  (if emittedName == eventNameSet && !ended
      && JVal.beq (JVal.vstr watchKey) arg0 then [arg1] else []) ++
  (if emittedName == eventNameClear && !ended
      && JVal.beq (JVal.vstr watchKey) arg0 then [JVal.vundef] else [])

/-- Delivery of one engine action to a watch handle: event emissions are
dispatched on the event bus under the name the corresponding emit call
uses, with the positional arguments that emit call passes; persistence
requests and publishes are not bus events and reach no listener. -/
def notifyWatch (watchKey : String) (ended : Bool) : Act → List JVal
  | Act.evSet k v _ =>
      watchInvocations watchKey ended emitSetEventName (JVal.vstr k) v
  | Act.evCleared k =>
      watchInvocations watchKey ended emitClearedEventName (JVal.vstr k)
        JVal.vundef
  | Act.evUpdated =>
      watchInvocations watchKey ended "updated" JVal.vundef JVal.vundef
  | Act.evError =>
      watchInvocations watchKey ended "error" JVal.vundef JVal.vundef
  | _ => []


/-- Strict equality on JVal is reflexive: every value is strictly equal to
itself (for an array, the same reference carries the same identity tag). -/
theorem JVal.beq_refl (v : JVal) : JVal.beq v v = true := by
  cases v <;> simp [JVal.beq]

/-- Looking up a key after an assignment: the assigned key reads the new
value, any other key is unaffected. -/
theorem jsLookup_jsAssign (s : Store) (key q : String) (v : JVal) :
    jsLookup (jsAssign s key v) q = if key = q then some v else jsLookup s q := by
  induction s with
  | nil =>
      by_cases h : key = q <;> simp [jsAssign, jsLookup, h]
  | cons p rest ih =>
      obtain ⟨k, w⟩ := p
      by_cases hk : k = key
      · subst hk
        by_cases hq : k = q <;> simp [jsAssign, jsLookup, hq]
      · by_cases hq : k = q
        · subst hq
          have : ¬ key = k := fun h => hk h.symm
          simp [jsAssign, jsLookup, hk, this]
        · simp [jsAssign, jsLookup, hk, hq, ih]

/-- Reading the key just assigned yields the assigned value. -/
theorem jsRead_jsAssign_self (s : Store) (key : String) (v : JVal) :
    jsRead (jsAssign s key v) key = v := by
  simp [jsRead, jsLookup_jsAssign]

/-- Deleting an absent key leaves the store unchanged. -/
theorem jsDelete_absent (s : Store) (key : String)
    (h : jsLookup s key = none) : jsDelete s key = s := by
  induction s with
  | nil => rfl
  | cons p rest ih =>
      obtain ⟨k, w⟩ := p
      by_cases hk : k = key
      · simp [jsLookup, hk] at h
      · simp [jsLookup, hk] at h
        have hrest := ih h
        unfold jsDelete at hrest ⊢
        rw [List.filter_cons, if_pos (by simp [hk]), hrest]

/-- Concrete instance state used by the witnesses: empty Local Mirror. -/
def stW : RegState := { keyspace := "global", uniqId := "self", store := [] }

/-- Concrete instance state used by the witnesses: one mirrored key. -/
def stW2 : RegState :=
  { keyspace := "global", uniqId := "self", store := [("x", JVal.vnum 0)] }

/-- C1: a set call that is not a no-op performs, in order: the background
hset persistence request; on its completion the publish of the change
envelope [key, newValue, previousValue] to the namespaced set channel,
before the completion's error is inspected; then on persistence failure
only an error emission (no set notification), and on success a set
notification carrying the new value and the pre-write local previous
value, followed by updated. -/
theorem claimC1 (st : RegState) (key : String) (value : JVal)
    (persistOk : Bool)
    (hchange : JVal.beq (jsRead st.store key) value = false) :
    Registry.set st key value persistOk =
      ({ st with store := jsAssign st.store key value },
        Act.hsetReq (keyConfig st) key value ::
        Act.publishMsg (keySpaceChannel st ChannelConfigSet) st.uniqId
          [JVal.vstr key, value, jsRead st.store key] ::
        (if persistOk then emitSetActions key value (jsRead st.store key)
         else [Act.evError])) := by
  simp [Registry.set, hchange]

/-- Witness for C1 at a concrete input. -/
theorem claimC1_witness :
    Registry.set stW "x" (JVal.vnum 1) true =
      ({ stW with store := jsAssign stW.store "x" (JVal.vnum 1) },
        Act.hsetReq (keyConfig stW) "x" (JVal.vnum 1) ::
        Act.publishMsg (keySpaceChannel stW ChannelConfigSet) stW.uniqId
          [JVal.vstr "x", JVal.vnum 1, jsRead stW.store "x"] ::
        (if true then emitSetActions "x" (JVal.vnum 1) (jsRead stW.store "x")
         else [Act.evError])) :=
  claimC1 stW "x" (JVal.vnum 1) true rfl

/-- C2: an inbound broadcast whose decoded sender equals this instance's
own id is discarded unconditionally on every channel: the Local Mirror is
unchanged and no event is emitted. -/
theorem claimC2 (st : RegState) (channel : String) (m : Msg)
    (hself : m.sender = st.uniqId) :
    Registry.onSubscriberMessage st channel m = (st, []) := by
  simp [Registry.onSubscriberMessage, hself]

/-- Witness for C2 at a concrete input (a self-echo on the set channel). -/
theorem claimC2_witness :
    Registry.onSubscriberMessage stW (keySpaceChannel stW ChannelConfigSet)
      { sender := "self", args := [JVal.vstr "x", JVal.vnum 2, JVal.vnull] }
      = (stW, []) :=
  claimC2 stW (keySpaceChannel stW ChannelConfigSet)
    { sender := "self", args := [JVal.vstr "x", JVal.vnum 2, JVal.vnull] } rfl

/-- Concrete instance state for the C4 counterexample: the mirror holds an
array [1] allocated with identity tag 0. -/
def stC4 : RegState :=
  { keyspace := "global", uniqId := "self",
    store := [("x", JVal.varr 0 [JVal.vnum 1])] }

/-- Counterexample to C4 as stated: the mirror holds the array [1] and set
is called with a structurally equal but freshly allocated array [1]
(distinct reference identity, tag 1). The new value is equal by value
equality to the mirrored value, yet the call is not a no-op: the source
guards with strict (reference) equality, so the full persistence,
broadcast and notification cycle runs. -/
theorem claimC4_counterexample :
    specValueEq (jsRead stC4.store "x") (JVal.varr 1 [JVal.vnum 1]) = true
    ∧ Registry.set stC4 "x" (JVal.varr 1 [JVal.vnum 1]) true =
        ({ stC4 with
            store := jsAssign stC4.store "x" (JVal.varr 1 [JVal.vnum 1]) },
          Act.hsetReq (keyConfig stC4) "x" (JVal.varr 1 [JVal.vnum 1]) ::
          Act.publishMsg (keySpaceChannel stC4 ChannelConfigSet) stC4.uniqId
            [JVal.vstr "x", JVal.varr 1 [JVal.vnum 1], jsRead stC4.store "x"] ::
          emitSetActions "x" (JVal.varr 1 [JVal.vnum 1])
            (jsRead stC4.store "x"))
    ∧ (Registry.set stC4 "x" (JVal.varr 1 [JVal.vnum 1]) true).2 ≠ [] := by
  refine ⟨rfl, rfl, ?_⟩
  simp [Registry.set, stC4, jsRead, jsLookup, JVal.beq]

/-- C4 (amended): a set call whose new value is strictly equal — by the JS
strict-equality test the source uses: value equality for primitives,
reference identity for arrays — to the currently mirrored value is a no-op,
same state and no actions; and after a non-no-op set of a value, setting
the identical value again is a no-op, so two set calls with the identical
unchanged value trigger exactly one persistence and broadcast cycle. -/
theorem claimC4 (st : RegState) (key : String) (value : JVal)
    (ok1 ok2 : Bool) :
    (JVal.beq (jsRead st.store key) value = true →
      Registry.set st key value ok1 = (st, []))
    ∧ (JVal.beq (jsRead st.store key) value = false →
        (Registry.set st key value ok1).2 ≠ []
        ∧ Registry.set (Registry.set st key value ok1).1 key value ok2 =
            ((Registry.set st key value ok1).1, [])) := by
  constructor
  · intro h
    simp [Registry.set, h]
  · intro h
    constructor
    · simp [Registry.set, h]
    · have h1 : (Registry.set st key value ok1).1 =
          { st with store := jsAssign st.store key value } := by
        simp [Registry.set, h]
      rw [h1]
      simp [Registry.set, jsRead_jsAssign_self, JVal.beq_refl]

/-- Witness for C4 at concrete inputs: an unchanged-value no-op and a
changed-value write followed by an identical no-op write. -/
theorem claimC4_witness :
    (Registry.set stW2 "x" (JVal.vnum 0) true = (stW2, []))
    ∧ ((Registry.set stW2 "x" (JVal.vnum 5) true).2 ≠ []
       ∧ Registry.set (Registry.set stW2 "x" (JVal.vnum 5) true).1 "x"
           (JVal.vnum 5) true = ((Registry.set stW2 "x" (JVal.vnum 5) true).1, [])) :=
  ⟨(claimC4 stW2 "x" (JVal.vnum 0) true true).1 rfl,
   (claimC4 stW2 "x" (JVal.vnum 5) true true).2 rfl⟩

/-- C7: an inbound set-channel envelope [key, newValue, previousRemote]
from a different sender overwrites the Local Mirror at the key with the
new value and fires the set notification with the local value mirrored
before the overwrite; the result does not depend on the remote previous
value carried in the envelope. -/
theorem claimC7 (st : RegState) (m : Msg) (key : String)
    (newValue prevRemote : JVal)
    (hother : ¬ m.sender = st.uniqId)
    (hargs : m.args = [JVal.vstr key, newValue, prevRemote]) :
    Registry.onSubscriberMessage st (keySpaceChannel st ChannelConfigSet) m =
      ({ st with store := jsAssign st.store key newValue },
        emitSetActions key newValue (jsRead st.store key)) := by
  simp [Registry.onSubscriberMessage, hother, hargs, jvalAsString]

/-- Witness for C7 at a concrete input: the envelope carries a remote
previous value 99 while the local previous value is 0. -/
theorem claimC7_witness :
    Registry.onSubscriberMessage stW2 (keySpaceChannel stW2 ChannelConfigSet)
      { sender := "peer", args := [JVal.vstr "x", JVal.vnum 2, JVal.vnum 99] } =
      ({ stW2 with store := jsAssign stW2.store "x" (JVal.vnum 2) },
        emitSetActions "x" (JVal.vnum 2) (jsRead stW2.store "x")) :=
  claimC7 stW2
    { sender := "peer", args := [JVal.vstr "x", JVal.vnum 2, JVal.vnum 99] }
    "x" (JVal.vnum 2) (JVal.vnum 99) (by decide) rfl

/-- Every key present after folding the fetched fields into the store came
from the initial store or from an entry whose text the JSON parser
accepted. -/
theorem pullFold_isSome (dec : String → Option JVal) :
    ∀ (entries : List (String × String)) (s0 : Store) (k : String),
      jsHas (entries.foldl
        (fun s kv => applyEncodedKeyValue dec s kv.1 kv.2) s0) k = true →
      jsHas s0 k = true ∨ ∃ t, (k, t) ∈ entries ∧ (dec t).isSome = true := by
  intro entries
  induction entries with
  | nil =>
      intro s0 k h
      exact Or.inl h
  | cons kv rest ih =>
      intro s0 k h
      rw [List.foldl_cons] at h
      rcases ih (applyEncodedKeyValue dec s0 kv.1 kv.2) k h with h1 | h2
      · cases hdec : dec kv.2 with
        | none =>
            left
            simpa [applyEncodedKeyValue, hdec] using h1
        | some v =>
            by_cases hk : kv.1 = k
            · right
              refine ⟨kv.2, ?_, by simp [hdec]⟩
              subst hk
              simp
            · left
              simp only [applyEncodedKeyValue, hdec, jsHas,
                jsLookup_jsAssign, hk, if_neg hk] at h1
              exact h1
      · right
        obtain ⟨t, hmem, hsome⟩ := h2
        exact ⟨t, List.mem_cons_of_mem kv hmem, hsome⟩

/-- Modelled behavior of the external JSON parser (the JSON.parse call in
applyEncodedKeyValue) on the three sample texts of the bootstrap
round-trip: "1" parses to the number 1, "[1,2]" to a freshly allocated
array [1,2] (given identity tag 0), and
"not-json" raises a parse error (none). -/
def decSample : String → Option JVal := fun t =>
  if t = "1" then some (JVal.vnum 1)
  else if t = "[1,2]" then some (JVal.varr 0 [JVal.vnum 1, JVal.vnum 2])
  else none

/-- C5: pulling from a durable hash holding a: "1", b: "[1,2]",
c: "not-json" leaves the Local Mirror with exactly a mapped to 1 and b
mapped to [1,2] (c dropped), and in general any key present after a pull
came from a fetched field whose text the JSON parser accepted — fields
that fail to parse are silently dropped. -/
theorem claimC5 :
    (Registry.pull stW decSample
        (.ok (some [("a", "1"), ("b", "[1,2]"), ("c", "not-json")])) =
      ({ stW with store :=
          [("a", JVal.vnum 1), ("b", JVal.varr 0 [JVal.vnum 1, JVal.vnum 2])] },
        [Act.evUpdated], true))
    ∧ ∀ (st : RegState) (dec : String → Option JVal)
        (entries : List (String × String)) (k : String),
        jsHas (Registry.pull st dec (.ok (some entries))).1.store k = true →
        ∃ t, (k, t) ∈ entries ∧ (dec t).isSome = true := by
  constructor
  · rfl
  · intro st dec entries k h
    have h1 : jsHas (entries.foldl
        (fun s kv => applyEncodedKeyValue dec s kv.1 kv.2) []) k = true := by
      simpa [Registry.pull] using h
    rcases pullFold_isSome dec entries [] k h1 with h2 | h2
    · simp [jsHas, jsLookup] at h2
    · exact h2

/-- Witness for C5: the parse-success origin of key a in the sample pull. -/
theorem claimC5_witness :
    jsHas (Registry.pull stW decSample
        (.ok (some [("a", "1"), ("b", "[1,2]"), ("c", "not-json")]))).1.store
      "a" = true
    ∧ ∃ t, ("a", t) ∈ [("a", "1"), ("b", "[1,2]"), ("c", "not-json")]
        ∧ (decSample t).isSome = true :=
  ⟨rfl, claimC5.2 stW decSample
    [("a", "1"), ("b", "[1,2]"), ("c", "not-json")] "a" rfl⟩

/-- C6: a pull whose fetch fails emits only the error event, leaves the
Local Mirror empty and does not invoke the completion callback; a pull
whose fetch succeeds emits the updated notification and invokes the
completion callback. -/
theorem claimC6 (st : RegState) (dec : String → Option JVal) :
    (Registry.pull st dec (.error ()) =
      ({ st with store := [] }, [Act.evError], false))
    ∧ ∀ hash, (Registry.pull st dec (.ok hash)).2 = ([Act.evUpdated], true) := by
  exact ⟨rfl, fun hash => rfl⟩

/-- C8: get returns the mirrored value whenever the key is present (even a
null or otherwise falsy value) and the default value when absent; in
particular get of a missing key returns the fallback, and after a set of
null the fallback is not used. -/
theorem claimC8 (ok : Bool) :
    (∀ (st : RegState) (k : String) (v d : JVal),
        jsLookup st.store k = some v → Registry.get st k d = v)
    ∧ (∀ (st : RegState) (k : String) (d : JVal),
        jsLookup st.store k = none → Registry.get st k d = d)
    ∧ Registry.get stW "missing" (JVal.vstr "fallback") = JVal.vstr "fallback"
    ∧ Registry.get (Registry.set stW "k" JVal.vnull ok).1 "k"
        (JVal.vstr "fallback") = JVal.vnull := by
  refine ⟨?_, ?_, rfl, ?_⟩
  · intro st k v d h
    simp [Registry.get, jsHas, jsRead, h]
  · intro st k d h
    simp [Registry.get, jsHas, h]
  · cases ok <;> rfl

/-- Witness for C8: a present key (value 0) and an absent key. -/
theorem claimC8_witness :
    (jsLookup stW2.store "x" = some (JVal.vnum 0)
      ∧ Registry.get stW2 "x" (JVal.vstr "fallback") = JVal.vnum 0)
    ∧ (jsLookup stW2.store "missing" = none
      ∧ Registry.get stW2 "missing" (JVal.vstr "fallback")
          = JVal.vstr "fallback") :=
  ⟨⟨rfl, (claimC8 true).1 stW2 "x" (JVal.vnum 0) (JVal.vstr "fallback") rfl⟩,
   ⟨rfl, (claimC8 true).2.1 stW2 "missing" (JVal.vstr "fallback") rfl⟩⟩

/-- C10: clear of a key absent from the Local Mirror is not a full no-op:
the state is unchanged but the hdel request is still issued, the clear
envelope [key] is still published on completion, and on deletion success
the cleared and updated notifications still fire (on failure the error
event fires instead). -/
theorem claimC10 (st : RegState) (key : String) (ok : Bool)
    (habs : jsLookup st.store key = none) :
    Registry.clear st key ok =
      (st,
        Act.hdelReq (keyConfig st) key ::
        Act.publishMsg (keySpaceChannel st ChannelConfigClear) st.uniqId
          [JVal.vstr key] ::
        (if ok then emitClearedActions key else [Act.evError])) := by
  have h1 : jsHas st.store key = false := by simp [jsHas, habs]
  simp [Registry.clear, h1]

/-- Witness for C10: clearing an absent key on an empty mirror. -/
theorem claimC10_witness :
    Registry.clear stW "k" true =
      (stW,
        Act.hdelReq (keyConfig stW) "k" ::
        Act.publishMsg (keySpaceChannel stW ChannelConfigClear) stW.uniqId
          [JVal.vstr "k"] ::
        (if true then emitClearedActions "k" else [Act.evError])) :=
  claimC10 stW "k" true rfl

/-- C3 (refutation by the code): the engine dispatches every clear
notification under the event name cleared (emitClearedEventName), while
the clear listener installed by watch is registered under the distinct
name clear (eventNameClear), so delivery of the cleared event of a
successful clear — which that clear does emit — invokes the watch callback
with nothing at all, never with the undefined indicator, even for a live
handle on the matching key. -/
theorem claimC3 (wk k : String) (ended : Bool) (st : RegState) :
    Act.evCleared k ∈ (Registry.clear st k true).2
    ∧ notifyWatch wk ended (Act.evCleared k) = [] := by
  constructor
  · simp [Registry.clear, emitClearedActions]
  · simp [notifyWatch, watchInvocations, emitClearedEventName,
      eventNameSet, eventNameClear]

/-- C9: with the per-handle ended flag set by the disposer, neither watch
listener invokes the callback for any delivered engine action. -/
theorem claimC9 (wk : String) (a : Act) : notifyWatch wk true a = [] := by
  cases a <;> simp [notifyWatch, watchInvocations]
